import Mathlib

/-!
Shallow embedding of the calculator engine of `src/script.js`.

Numbers are modelled as exact rationals (`ℚ`) together with a `nan` value:
JavaScript's IEEE-754 doubles introduce rounding that exact rationals do not
reproduce, but every claim below is settled at values on which the two agree
(small decimals, integers, and the structural behaviour of the code, which is
independent of the numeric carrier).  `Infinity` is unobservable in the model:
rationals do not overflow, and the only division is guarded by the
divisor-is-zero check in `calculate`, so the non-finite values are collapsed
into the single `nan` constructor (both render as the string "Error" through
`isFinite`).

The timers of the source (`setTimeout(... , 2000)` after `showError`, and the
1500 ms advisory-message revert of `showTemporaryMessage`) are modelled by a
`pendingAutoClear` flag plus an explicit `Event.errorTimer` transition firing
the scheduled `clear()`; the 1500 ms trace revert changes no engine state that
any claim refers to and is not modelled.  DOM-only effects (CSS classes on the
operator buttons) are ignored; the two display sinks (`display.textContent`,
`operationDisplay.textContent`) and the `error` CSS class are modelled as the
fields `displayText`, `operationDisplay`, `errorActive`.
-/

namespace Calculator

/-! ### Decimal-digit string utilities -/

/-- The ten decimal digit characters; any other index falls back to '0'
(never hit by the uses below, which always pass values < 10). -/
def digitChar (n : Nat) : Char :=
  match n with
  | 0 => '0' | 1 => '1' | 2 => '2' | 3 => '3' | 4 => '4'
  | 5 => '5' | 6 => '6' | 7 => '7' | 8 => '8' | 9 => '9' | _ => '0'

/-- Decimal digits of a natural number, most significant first; `fuel` bounds
the recursion (any `fuel > log10 n` yields the full digit list). -/
def natDigitsAux : Nat → Nat → List Char
  | 0, _ => []
  | fuel + 1, n =>
    if n < 10 then [digitChar n]
    else natDigitsAux fuel (n / 10) ++ [digitChar (n % 10)]

/-- Decimal digit string of a natural number (`(5).toString()` in JS). -/
def natDigits (n : Nat) : List Char := natDigitsAux (n + 1) n

/-- Left-pad a digit list with '0' up to length `k`. -/
def padZeros (l : List Char) (k : Nat) : List Char :=
  List.replicate (k - l.length) '0' ++ l

/-- Drop the trailing '0' characters of a digit list. -/
def stripTrailZeros (l : List Char) : List Char :=
  (l.reverse.dropWhile (· == '0')).reverse

/-- Single character test used by the input adapter: is `c` one of '0'-'9'. -/
def isDigitChar (c : Char) : Bool := '0' ≤ c && c ≤ '9'

/-! ### Rational helpers -/

/-- `10 ^ e` for an integer exponent. -/
def ratPow10 (e : Int) : ℚ :=
  if 0 ≤ e then ((10 : ℚ)) ^ e.toNat else 1 / (10 : ℚ) ^ (-e).toNat

/-- Round a (nonnegative) rational to the nearest natural number, ties upward
(the tie-breaking rule of ECMAScript's `toFixed`/`toExponential`: of two
equally near candidates, the larger is chosen). -/
def roundHalfUp (x : ℚ) : Nat := (Int.floor (x + 1/2)).toNat

/-- Count how many times `p` divides `n`, returning the count and the
remaining cofactor; `fuel` bounds the recursion. -/
def countFac : Nat → Nat → Nat → Nat × Nat
  | 0, _, n => (0, n)
  | fuel + 1, p, n =>
    if 2 ≤ p ∧ n % p = 0 ∧ n ≠ 0 then
      let r := countFac fuel p (n / p)
      (r.1 + 1, r.2)
    else (0, n)

/-- The number of fractional decimal digits of `q` when its decimal expansion
terminates (i.e. the least `k` with `q * 10 ^ k` integral), and `none` when
the expansion does not terminate. -/
def ratDecExp (q : ℚ) : Option Nat :=
  let d := q.den
  let r2 := countFac d 2 d
  let r5 := countFac r2.2 5 r2.2
  if r5.2 = 1 then some (max r2.1 r5.1) else none

/-- Number of decimal digits of `n`. -/
def numDigits (n : Nat) : Nat := (natDigits n).length

/-- Floor of `log10 |q|` for `q ≠ 0` (0 for `q = 0`): the decimal exponent
used by `toExponential` and by the 17-significant-digit rendering. -/
def ilog10 (q : ℚ) : Int :=
  if q = 0 then 0
  else
    let a := |q|.num.toNat
    let b := |q|.den
    let e : Int := (numDigits a : Int) - (numDigits b : Int)
    if ratPow10 e ≤ |q| then e else e - 1

/-- Bounded binary search for the integer square root: maintains
`lo ≤ ⌊√n⌋ ≤ hi` and returns `lo` when the interval collapses. -/
def isqrtGo (n : Nat) : Nat → Nat → Nat → Nat
  | 0, lo, _ => lo
  | fuel + 1, lo, hi =>
    if hi ≤ lo then lo
    else
      let mid := (lo + hi + 1) / 2
      if mid * mid ≤ n then isqrtGo n fuel mid hi else isqrtGo n fuel lo (mid - 1)

/-- Integer square root (`⌊√n⌋`). -/
def isqrt (n : Nat) : Nat := isqrtGo n (n + 2) 0 n

/-- Modelled from the source's `Math.sqrt`: the IEEE double square root is
modelled as the decimal approximation with 17 fractional digits of headroom;
it is exact on every square of a decimal number with at most 17 significant
digits (in particular `ratSqrt 16 = 4`), which covers the values the claims
evaluate it at. -/
def ratSqrt (q : ℚ) : ℚ :=
  if q ≤ 0 then 0
  else (isqrt (Int.toNat (Int.floor (q * 10 ^ 34))) : ℚ) / 10 ^ 17

/-! ### JavaScript numbers -/

/-- A JavaScript number as observable by this program: a finite value (an
exact rational in this model) or `NaN`.  `±Infinity` is collapsed into `nan`:
see the file comment. -/
inductive JSNum where
  | num (q : ℚ)
  | nan
deriving DecidableEq

namespace JSNum

/-- `isFinite` of JS: true exactly on finite values. -/
def isFinite : JSNum → Bool
  | num _ => true
  | nan => false

/-- JS `+` : `NaN` propagates. -/
def add : JSNum → JSNum → JSNum
  | num a, num b => num (a + b)
  | _, _ => nan

/-- JS `-` : `NaN` propagates. -/
def sub : JSNum → JSNum → JSNum
  | num a, num b => num (a - b)
  | _, _ => nan

/-- JS `*` : `NaN` propagates. -/
def mul : JSNum → JSNum → JSNum
  | num a, num b => num (a * b)
  | _, _ => nan

/-- JS `/` : `NaN` propagates.  A zero divisor yields `nan` (JS would yield
`±Infinity` or `NaN`, all non-finite and all rendered "Error"; `calculate`
guards the divisor, so this case is unreachable there). -/
def div : JSNum → JSNum → JSNum
  | num a, num b => if b = 0 then nan else num (a / b)
  | _, _ => nan

/-- The `current === 0` test of `calculate`: false on `NaN`. -/
def isZero : JSNum → Bool
  | num q => decide (q = 0)
  | nan => false

/-- The `current < 0` test of `calculateSquareRoot`: false on `NaN`. -/
def lt0 : JSNum → Bool
  | num q => decide (q < 0)
  | nan => false

/-- JS `Math.sqrt` (see `ratSqrt`); `Math.sqrt(NaN) = NaN`. -/
def sqrt : JSNum → JSNum
  | num q => num (ratSqrt q)
  | nan => nan

end JSNum

/-! ### `parseFloat` -/

/-- Longest digit prefix of a character list, and the rest. -/
def takeDigits (l : List Char) : List Char × List Char :=
  (l.takeWhile isDigitChar, l.dropWhile isDigitChar)

/-- Numeric value of a digit character. -/
def digitVal (c : Char) : Nat := c.toNat - 48

/-- Numeric value of a digit list, most significant first. -/
def digitsToNat (l : List Char) : Nat := l.foldl (fun a c => a * 10 + digitVal c) 0

/-- JS `parseFloat`: skip leading spaces, read an optional sign, the longest
`digits [. digits] [e|E [sign] digits]` prefix, and ignore the rest; `NaN`
when no digit is read before the exponent.  (The special literals
"Infinity"/"NaN" accepted by JS never occur in this program's inputs and are
not modelled: they parse to `nan` here.) -/
def parseFloat (s : String) : JSNum :=
  let l := s.data.dropWhile (· == ' ')
  let sl : ℚ × List Char :=
    match l with
    | '-' :: t => (-1, t)
    | '+' :: t => (1, t)
    | _ => (1, l)
  let ip := takeDigits sl.2
  let fp : List Char × List Char :=
    match ip.2 with
    | '.' :: t => takeDigits t
    | _ => ([], ip.2)
  if ip.1 = [] ∧ fp.1 = [] then JSNum.nan
  else
    let base : ℚ := (digitsToNat ip.1 : ℚ) + (digitsToNat fp.1 : ℚ) / 10 ^ fp.1.length
    let ex : Int :=
      match fp.2 with
      | 'e' :: t | 'E' :: t =>
        let st : Int × List Char :=
          match t with
          | '-' :: u => (-1, u)
          | '+' :: u => (1, u)
          | _ => (1, t)
        let ed := (takeDigits st.2).1
        if ed = [] then 0 else st.1 * (digitsToNat ed : Int)
      | _ => 0
    JSNum.num (sl.1 * base * ratPow10 ex)

/-! ### Display rendering of numbers -/

/-- Shared decimal renderer: the string
`sign ++ digits(m / 10^k) ++ "." ++ k fractional digits of m`, the fractional
block omitted when `k = 0` (and, with `strip`, after its trailing zeros are
removed — together with the then-dangling '.' when all of them were zeros). -/
def renderDecimal (neg : Bool) (m k : Nat) (strip : Bool) : String :=
  let fracRaw := if k = 0 then [] else padZeros (natDigits (m % 10 ^ k)) k
  let frac := if strip then stripTrailZeros fracRaw else fracRaw
  String.mk ((if neg then ['-'] else []) ++ natDigits (m / 10 ^ k) ++
    (if frac = [] then [] else '.' :: frac))

/-- JS `result.toString()` on a finite number, modelled over exact rationals:
a terminating decimal renders as its exact shortest decimal string (what JS
prints for doubles holding such values); a non-terminating one renders
rounded to 17 significant digits with trailing fractional zeros stripped,
matching the digit budget of the shortest round-trip form JS prints.  Inside
`formatResult` this string is only consulted when `1e-6 < |q| < 1e12` or
`q = 0`, where JS `toString` uses plain (non-exponential) notation, as here. -/
def jsToString (q : ℚ) : String :=
  match ratDecExp q with
  | some k => renderDecimal (decide (q < 0)) (Int.toNat (Int.floor (|q| * 10 ^ k))) k false
  | none =>
    let e := ilog10 q
    let m := roundHalfUp (|q| * ratPow10 (16 - e))
    if 16 ≤ e then
      String.mk ((if q < 0 then ['-'] else []) ++ natDigits m ++
        List.replicate (e - 16).toNat '0')
    else renderDecimal (decide (q < 0)) m (16 - e).toNat true

/-- JS `result.toExponential(f)`: `d.f-digits` mantissa in `[1, 10)` (chosen
nearest, ties to the larger, with a carry bumping the exponent), then `e`, an
explicit exponent sign, and the exponent without padding. -/
def jsToExponential (q : ℚ) (f : Nat) : String :=
  if q = 0 then
    String.mk (['0'] ++ (if f = 0 then [] else '.' :: List.replicate f '0') ++ ['e', '+', '0'])
  else
    let e0 := ilog10 q
    let n0 := roundHalfUp (|q| * ratPow10 ((f : Int) - e0))
    let n := if n0 = 10 ^ (f + 1) then 10 ^ f else n0
    let e := if n0 = 10 ^ (f + 1) then e0 + 1 else e0
    String.mk ((if q < 0 then ['-'] else []) ++ natDigits (n / 10 ^ f) ++
      ((if f = 0 then [] else '.' :: padZeros (natDigits (n % 10 ^ f)) f) ++
        ['e'] ++ (if e < 0 then ['-'] else ['+']) ++ natDigits e.natAbs))

/-- JS `result.toFixed(k).replace(/\.?0+$/, '')` as one step: `toFixed` takes
the sign apart, rounds `|q|` to `k` fractional digits (ties to the larger) and
keeps trailing zeros; on its output — which always contains a '.' for `k > 0`,
so the regex cannot reach across it into the integer digits — the regex
exactly removes the trailing fractional zeros plus the then-dangling '.' when
the whole fraction was zeros, i.e. the `strip` mode of `renderDecimal`. -/
def jsToFixedStripped (q : ℚ) (k : Nat) : String :=
  renderDecimal (decide (q < 0)) (roundHalfUp (|q| * 10 ^ k)) k true

/-- The `formatted.includes('.') ? formatted.split('.')[1].length : 0` of the
source: the number of characters after the first '.' (0 when there is none;
no string of this program carries two dots). -/
def fracDigitCount (s : String) : Nat := ((s.data.dropWhile (· != '.')).drop 1).length

/-- `formatResult` of `src/script.js` lines 373-401: "Error" on non-finite
input; exponential with 6 fractional digits for `|v| ≥ 1e12` and for
`0 ≠ |v| ≤ 1e-6`; otherwise the plain `toString` rendering, replaced by the
zero-stripped `toFixed(8)` rounding when it shows more than 8 fractional
digits; finally, any result longer than 12 characters falls back to
exponential with 5 fractional digits. -/
def formatResult (r : JSNum) : String :=
  match r with
  | JSNum.nan => "Error"
  | JSNum.num q =>
    let s0 := jsToString q
    let formatted :=
      if |q| ≥ (10 : ℚ) ^ 12 ∨ (|q| ≤ 1 / (10 : ℚ) ^ 6 ∧ q ≠ 0) then jsToExponential q 6
      else if 8 < fracDigitCount s0 then jsToFixedStripped q 8
      else s0
    if 12 < formatted.length then jsToExponential q 5 else formatted

/-! ### The calculator state machine -/

/-- The four binary operators. -/
inductive Op where
  | add | subtract | multiply | divide
deriving DecidableEq

/-- The display symbol of an operator (`operatorSymbols` of the source). -/
def opSymbol : Op → String
  | Op.add => "+"
  | Op.subtract => "-"
  | Op.multiply => "×"
  | Op.divide => "÷"

/-- The mutable state of the `Calculator` class: its five data fields, the
two display sinks, the `error` CSS class, and the pending error auto-clear
timer (see the file comment). -/
structure CalcState where
  currentInput : String
  previousInput : Option String
  operator : Option Op
  waitingForNewInput : Bool
  memory : JSNum
  operationDisplay : String
  displayText : String
  errorActive : Bool
  pendingAutoClear : Bool
deriving DecidableEq

/-- The state after the constructor ran (which ends in `updateDisplay`). -/
def initState : CalcState :=
  { currentInput := "0", previousInput := none, operator := none,
    waitingForNewInput := false, memory := JSNum.num 0,
    operationDisplay := "", displayText := "0",
    errorActive := false, pendingAutoClear := false }

/-- `updateDisplay`: render `currentInput` and drop the `error` class. -/
def updateDisplay (s : CalcState) : CalcState :=
  { s with displayText := s.currentInput, errorActive := false }

/-- Delay of the error auto-clear timer scheduled by `showError` (ms). -/
def errorAutoClearDelayMs : Nat := 2000

/-- Delay of the advisory-message revert of `showTemporaryMessage` (ms). -/
def temporaryMessageDelayMs : Nat := 1500

/-- `showError`: put the message in the primary display, set the `error`
class, blank the operation trace and schedule a `clear()` after
`errorAutoClearDelayMs`. -/
def showError (message : String) (s : CalcState) : CalcState :=
  { s with
    displayText := message, errorActive := true,
    operationDisplay := "", pendingAutoClear := true }

/-- `showTemporaryMessage`: the message replaces the operation trace; its
revert after `temporaryMessageDelayMs` touches no state a claim refers to and
is not modelled (see the file comment). -/
def showTemporaryMessage (message : String) (s : CalcState) : CalcState :=
  { s with operationDisplay := message }

/-- `clear()`: reset everything except the memory register (and except the
still-armed auto-clear timer, which the source never cancels). -/
def clear (s : CalcState) : CalcState :=
  updateDisplay
    { s with
      currentInput := "0", previousInput := none, operator := none,
      waitingForNewInput := false, operationDisplay := "", errorActive := false }

/-- The scheduled `clear()` of `showError` firing (2000 ms later). -/
def fireAutoClear (s : CalcState) : CalcState :=
  if s.pendingAutoClear then clear { s with pendingAutoClear := false } else s

/-- `inputNumber(number)`: start a fresh entry, collapse the leading zero, or
append below the 12-character cap. -/
def inputNumber (number : Char) (s : CalcState) : CalcState :=
  updateDisplay
    (if s.waitingForNewInput then
      { s with currentInput := String.singleton number, waitingForNewInput := false }
    else if s.currentInput = "0" ∧ number ≠ '0' then
      { s with currentInput := String.singleton number }
    else if s.currentInput ≠ "0" ∧ s.currentInput.length < 12 then
      { s with currentInput := s.currentInput ++ String.singleton number }
    else s)

/-- The `this.currentInput.includes('.')` test. -/
def includesDot (s : String) : Bool := s.data.any (· == '.')

/-- `inputDecimal()`: start "0." on a fresh entry, else append the first '.'
(note: no length cap here, unlike `inputNumber`). -/
def inputDecimal (s : CalcState) : CalcState :=
  updateDisplay
    (if s.waitingForNewInput then
      { s with currentInput := "0.", waitingForNewInput := false }
    else if ¬ includesDot s.currentInput then
      { s with currentInput := s.currentInput ++ "." }
    else s)

/-- The tail of `calculate` after the operator switch produced a result:
write the trace, format the result into `currentInput`, drop the pending
operator/operand, await a fresh entry, and re-render. -/
def finishCalculate (s : CalcState) (op : Op) (prevStr : String) (result : JSNum) : CalcState :=
  updateDisplay
    { s with
      operationDisplay := prevStr ++ " " ++ opSymbol op ++ " " ++ s.currentInput ++ " =",
      currentInput := formatResult result,
      operator := none, previousInput := none, waitingForNewInput := true }

/-- `calculate()`: no-op without a pending operator and operand; parse both
operands with `parseFloat`; a zero divisor short-circuits into `showError`
before any state is touched; otherwise compute and finish. -/
def calculate (s : CalcState) : CalcState :=
  match s.operator, s.previousInput with
  | some op, some prevStr =>
    let prev := parseFloat prevStr
    let current := parseFloat s.currentInput
    match op with
    | Op.add => finishCalculate s op prevStr (prev.add current)
    | Op.subtract => finishCalculate s op prevStr (prev.sub current)
    | Op.multiply => finishCalculate s op prevStr (prev.mul current)
    | Op.divide =>
      if current.isZero then showError "Cannot divide by zero" s
      else finishCalculate s op prevStr (prev.div current)
  | _, _ => s

/-- `setOperator(newOperator)`: evaluate a pending chain first (when an
operand was entered since the last operator), then arm the new operator with
the current entry as its left operand. -/
def setOperator (newOperator : Op) (s : CalcState) : CalcState :=
  let s1 := if s.operator.isSome && !s.waitingForNewInput then calculate s else s
  { s1 with
    operator := some newOperator, previousInput := some s1.currentInput,
    waitingForNewInput := true,
    operationDisplay := s1.currentInput ++ " " ++ opSymbol newOperator }

/-- `calculatePercentage()`: divide the current entry by 100. -/
def calculatePercentage (s : CalcState) : CalcState :=
  updateDisplay
    { s with
      operationDisplay := s.currentInput ++ "% =",
      currentInput := formatResult ((parseFloat s.currentInput).div (JSNum.num 100)),
      waitingForNewInput := true }

/-- `calculateSquareRoot()`: error on a negative entry, else take the root. -/
def calculateSquareRoot (s : CalcState) : CalcState :=
  let current := parseFloat s.currentInput
  if current.lt0 then showError "Invalid input for square root" s
  else
    updateDisplay
      { s with
        operationDisplay := "√" ++ s.currentInput ++ " =",
        currentInput := formatResult current.sqrt,
        waitingForNewInput := true }

/-- `memoryClear()`. -/
def memoryClear (s : CalcState) : CalcState :=
  showTemporaryMessage "Memory cleared" { s with memory := JSNum.num 0 }

/-- `memoryRecall()`. -/
def memoryRecall (s : CalcState) : CalcState :=
  showTemporaryMessage "Memory recalled"
    (updateDisplay
      { s with currentInput := formatResult s.memory, waitingForNewInput := true })

/-- `memoryAdd()`. -/
def memoryAdd (s : CalcState) : CalcState :=
  showTemporaryMessage "Added to memory"
    { s with memory := s.memory.add (parseFloat s.currentInput) }

/-- `memorySubtract()`. -/
def memorySubtract (s : CalcState) : CalcState :=
  showTemporaryMessage "Subtracted from memory"
    { s with memory := s.memory.sub (parseFloat s.currentInput) }

/-- The discrete input events the engine consumes (the `data-number` buttons,
the `handleAction` cases, and the error auto-clear timer firing). -/
inductive Event where
  | digit (d : Char)
  | decimal
  | op (o : Op)
  | equals
  | clearKey
  | percentage
  | squareRoot
  | memClear
  | memRecall
  | memAdd
  | memSub
  | errorTimer
deriving DecidableEq

/-- Well-formedness of an event as produced by the input adapter: digit
events carry one of '0'-'9' (buttons carry `data-number`, the keyboard path
filters on `key >= '0' && key <= '9'`). -/
def eventWF : Event → Bool
  | Event.digit d => isDigitChar d
  | _ => true

/-- The dispatcher (`handleAction` plus the number buttons and the timer). -/
def step (e : Event) (s : CalcState) : CalcState :=
  match e with
  | Event.digit d => inputNumber d s
  | Event.decimal => inputDecimal s
  | Event.op o => setOperator o s
  | Event.equals => calculate s
  | Event.clearKey => clear s
  | Event.percentage => calculatePercentage s
  | Event.squareRoot => calculateSquareRoot s
  | Event.memClear => memoryClear s
  | Event.memRecall => memoryRecall s
  | Event.memAdd => memoryAdd s
  | Event.memSub => memorySubtract s
  | Event.errorTimer => fireAutoClear s

/-- Run a list of events from a state. -/
def run (es : List Event) (s : CalcState) : CalcState :=
  es.foldl (fun t e => step e t) s

/-! ### Definitions taken from the specification's words (for refinement
claims) and auxiliary predicates used in claim statements -/

/-- Modelled from the spec: the four-step `formatResult` policy exactly as
C2 words it — non-finite → "Error"; `|v| ≥ 1e12` or `0 ≠ |v| ≤ 1e-6` →
exponential with 6 fractional digits; else the plain decimal string, rounded
to 8 fractional digits (trailing zeros and a then-empty '.' stripped) when it
has more than 8 fractional digits; a result still longer than 12 characters →
exponential with 5 fractional digits. -/
def formatResultSpec (r : JSNum) : String :=
  match r with
  | JSNum.nan => "Error"
  | JSNum.num q =>
    let base :=
      if |q| ≥ (10 : ℚ) ^ 12 ∨ (|q| ≤ 1 / (10 : ℚ) ^ 6 ∧ q ≠ 0) then jsToExponential q 6
      else
        let plain := jsToString q
        if 8 < fracDigitCount plain then jsToFixedStripped q 8
        else plain
    if 12 < base.length then jsToExponential q 5 else base

/-- A valid entry sequence in the sense of C3: nonempty, at most 12
characters, digits with at most one '.', starting with a digit, and with no
leading zero (after a leading '0' only '.' may follow). -/
def validEntrySeq (l : List Char) : Bool :=
  match l with
  | [] => false
  | c :: rest =>
    isDigitChar c && l.all (fun x => isDigitChar x || x == '.') &&
    decide (l.count '.' ≤ 1) && decide (l.length ≤ 12) &&
    (c != '0' || rest.isEmpty || rest.head? == some '.')

/-- The event a character of an entry sequence maps to. -/
def entryEvent (c : Char) : Event :=
  if c == '.' then Event.decimal else Event.digit c

/-- Nonempty with at most one decimal point: the `CurrentEntry` string
invariant of the data model. -/
def GoodEntry (s : String) : Prop := s ≠ "" ∧ s.data.count '.' ≤ 1

/-- A divide-by-zero is pending: `evaluate` would hit the `showError` path. -/
def divZeroPending (s : CalcState) : Prop :=
  s.operator = some Op.divide ∧ s.previousInput ≠ none ∧
    (parseFloat s.currentInput).isZero = true

/-! ### Concrete probe states for witnesses and counterexamples -/

/-- 10 ÷ 0 about to be evaluated. -/
def divProbe : CalcState :=
  { initState with previousInput := some "10", operator := some Op.divide }

/-- 8 ÷ 0.00 about to be evaluated (a second divide-by-zero probe). -/
def divProbe2 : CalcState :=
  { initState with
    currentInput := "0.00", previousInput := some "8",
    operator := some Op.divide }

/-- A pending `5 + <malformed>`: the current entry is the string "Error"
that a non-finite result leaves behind. -/
def malformedProbe : CalcState :=
  { initState with
    currentInput := "Error", previousInput := some "5",
    operator := some Op.add }

/-- A current entry of "16", ready for the square root. -/
def sqrtProbe : CalcState := { initState with currentInput := "16" }

/-- The event sequence 2, +, 3, × of the chaining example. -/
def chainPrefixEvents : List Event :=
  [Event.digit '2', Event.op Op.add, Event.digit '3', Event.op Op.multiply]

/-- The full chaining example 2, +, 3, ×, 4, =. -/
def chainFullEvents : List Event :=
  chainPrefixEvents ++ [Event.digit '4', Event.equals]

/-- Twelve '1' digits followed by a decimal point. -/
def thirteenCharEntryEvents : List Event :=
  List.replicate 12 (Event.digit '1') ++ [Event.decimal]

/-! ### Shape lemmas: every rendered number string is nonempty and carries at
most one decimal point -/

theorem digitChar_ne_dot (n : Nat) : digitChar n ≠ '.' := by
  unfold digitChar
  split <;> decide

theorem not_dot_natDigitsAux (fuel n : Nat) : '.' ∉ natDigitsAux fuel n := by
  induction fuel generalizing n with
  | zero => simp [natDigitsAux]
  | succ f ih =>
    unfold natDigitsAux
    split
    · intro h
      exact digitChar_ne_dot n (List.mem_singleton.mp h).symm
    · intro h
      rcases List.mem_append.mp h with h1 | h2
      · exact ih _ h1
      · exact digitChar_ne_dot _ (List.mem_singleton.mp h2).symm

theorem not_dot_natDigits (n : Nat) : '.' ∉ natDigits n :=
  not_dot_natDigitsAux _ _

theorem natDigits_ne_nil (n : Nat) : natDigits n ≠ [] := by
  unfold natDigits natDigitsAux
  split <;> simp

theorem not_dot_padZeros (l : List Char) (k : Nat) (h : '.' ∉ l) :
    '.' ∉ padZeros l k := by
  unfold padZeros
  intro hm
  rcases List.mem_append.mp hm with h1 | h2
  · exact absurd (List.eq_of_mem_replicate h1) (by decide)
  · exact h h2

theorem not_dot_strip (l : List Char) (h : '.' ∉ l) : '.' ∉ stripTrailZeros l := by
  unfold stripTrailZeros
  intro hm
  exact h (List.mem_reverse.mp ((List.dropWhile_sublist _).subset (List.mem_reverse.mp hm)))

theorem mk_append3_good (pre mid post : List Char) (hmid : mid ≠ [])
    (hpre : '.' ∉ pre) (hm : '.' ∉ mid) (hpost : post.count '.' ≤ 1) :
    GoodEntry (String.mk (pre ++ mid ++ post)) := by
  constructor
  · intro h
    have hl : pre ++ mid ++ post = [] := congrArg String.data h
    rcases List.append_eq_nil.mp hl with ⟨h1, _⟩
    exact hmid (List.append_eq_nil.mp h1).2
  · show (pre ++ mid ++ post).count '.' ≤ 1
    rw [List.count_append, List.count_append,
      List.count_eq_zero_of_not_mem hpre, List.count_eq_zero_of_not_mem hm]
    simpa using hpost

theorem count_dot_natDigits (n : Nat) : List.count '.' (natDigits n) = 0 :=
  List.count_eq_zero_of_not_mem (not_dot_natDigits _)

theorem count_dot_expFrac (f n : Nat) :
    List.count '.' (if f = 0 then [] else '.' :: padZeros (natDigits n) f) =
      if f = 0 then 0 else 1 := by
  split
  · simp
  · rw [List.count_cons]
    simp [List.count_eq_zero_of_not_mem (not_dot_padZeros _ _ (not_dot_natDigits _))]

theorem count_dot_expSign (e : Int) :
    List.count '.' (if e < 0 then ['-'] else ['+']) = 0 := by
  split <;> decide

theorem count_dot_dotfrac (frac : List Char) (h : '.' ∉ frac) :
    List.count '.' (if frac = [] then [] else '.' :: frac) ≤ 1 := by
  split
  · simp
  · rw [List.count_cons]
    simp [List.count_eq_zero_of_not_mem h]

theorem renderDecimal_good (neg : Bool) (m k : Nat) (strip : Bool) :
    GoodEntry (renderDecimal neg m k strip) := by
  unfold renderDecimal
  dsimp only
  have hraw : '.' ∉ (if k = 0 then [] else padZeros (natDigits (m % 10 ^ k)) k) := by
    split
    · simp
    · exact not_dot_padZeros _ _ (not_dot_natDigits _)
  have hfrac : '.' ∉ (if strip then
      stripTrailZeros (if k = 0 then [] else padZeros (natDigits (m % 10 ^ k)) k)
    else (if k = 0 then [] else padZeros (natDigits (m % 10 ^ k)) k)) := by
    split
    · exact not_dot_strip _ hraw
    · exact hraw
  exact mk_append3_good _ _ _ (natDigits_ne_nil _)
    (by cases neg <;> simp) (not_dot_natDigits _) (count_dot_dotfrac _ hfrac)

theorem jsToString_good (q : ℚ) : GoodEntry (jsToString q) := by
  unfold jsToString
  split
  · exact renderDecimal_good _ _ _ _
  · dsimp only
    split
    · apply mk_append3_good _ _ _ (natDigits_ne_nil _)
        (by split <;> simp) (not_dot_natDigits _)
      rw [List.count_eq_zero_of_not_mem]
      · decide
      · intro hm
        exact absurd (List.eq_of_mem_replicate hm) (by decide)
    · exact renderDecimal_good _ _ _ _

theorem jsToExponential_good (q : ℚ) (f : Nat) : GoodEntry (jsToExponential q f) := by
  unfold jsToExponential
  split
  · constructor
    · intro h
      exact absurd (congrArg String.data h) (by simp)
    · show List.count '.' _ ≤ 1
      rw [List.count_append, List.count_append]
      have h1 : List.count '.' ['0'] = 0 := by decide
      have h3 : List.count '.' ['e', '+', '0'] = 0 := by decide
      have h2 : List.count '.' (if f = 0 then [] else '.' :: List.replicate f '0') ≤ 1 := by
        split
        · simp
        · rw [List.count_cons]
          simp [List.count_eq_zero_of_not_mem
            (fun hm => absurd (List.eq_of_mem_replicate hm) (by decide : ('.' : Char) ≠ '0'))]
      omega
  · dsimp only
    apply mk_append3_good _ _ _ (natDigits_ne_nil _)
      (by split <;> simp) (not_dot_natDigits _)
    have he : List.count '.' ['e'] = 0 := by decide
    simp only [List.count_append, count_dot_expFrac, count_dot_expSign,
      count_dot_natDigits, he]
    split <;> simp

theorem jsToFixedStripped_good (q : ℚ) (k : Nat) : GoodEntry (jsToFixedStripped q k) :=
  renderDecimal_good _ _ _ _

theorem formatResult_good (r : JSNum) : GoodEntry (formatResult r) := by
  cases r with
  | nan => exact ⟨by decide, by decide⟩
  | num q =>
    unfold formatResult
    dsimp only
    by_cases hA : |q| ≥ (10 : ℚ) ^ 12 ∨ (|q| ≤ 1 / (10 : ℚ) ^ 6 ∧ q ≠ 0)
    · simp only [if_pos hA]
      split
      · exact jsToExponential_good _ _
      · exact jsToExponential_good _ _
    · simp only [if_neg hA]
      by_cases hB : 8 < fracDigitCount (jsToString q)
      · simp only [if_pos hB]
        split
        · exact jsToExponential_good _ _
        · exact jsToFixedStripped_good _ _
      · simp only [if_neg hB]
        split
        · exact jsToExponential_good _ _
        · exact jsToString_good _

/-! ### Preservation of the CurrentEntry invariant by every operation -/

theorem run_cons (e : Event) (t : List Event) (s : CalcState) :
    run (e :: t) s = run t (step e s) := rfl

theorem run_concat (es : List Event) (e : Event) (s : CalcState) :
    run (es ++ [e]) s = step e (run es s) := by
  simp [run, List.foldl_append]

theorem goodEntry_singleton (d : Char) : GoodEntry (String.singleton d) := by
  constructor
  · intro h
    exact absurd (congrArg String.data h) (by simp [String.singleton])
  · show List.count '.' [d] ≤ 1
    rw [List.count_singleton]
    split <;> simp

theorem goodEntry_append_char (s : String) (d : Char) (hd : d ≠ '.')
    (h : GoodEntry s) : GoodEntry (s ++ String.singleton d) := by
  constructor
  · intro hEq
    have : s.data ++ [d] = [] := congrArg String.data hEq
    simp at this
  · show (s.data ++ [d]).count '.' ≤ 1
    rw [List.count_append, List.count_singleton]
    have : ¬ (d == '.') = true := by simpa using hd
    rw [if_neg this]
    simpa using h.2

theorem goodEntry_zero : GoodEntry "0" := ⟨by decide, by decide⟩

theorem goodEntry_zeroDot : GoodEntry "0." := ⟨by decide, by decide⟩

theorem goodEntry_calculate (s : CalcState) (h : GoodEntry s.currentInput) :
    GoodEntry (calculate s).currentInput := by
  rcases ho : s.operator with _ | op <;> rcases hp : s.previousInput with _ | prevStr <;>
    unfold calculate <;> rw [ho, hp] <;> dsimp only
  · exact h
  · exact h
  · exact h
  · cases op <;> dsimp only
    · exact formatResult_good _
    · exact formatResult_good _
    · exact formatResult_good _
    · split
      · exact h
      · exact formatResult_good _

theorem goodEntry_inputNumber (d : Char) (s : CalcState) (hd : isDigitChar d = true)
    (h : GoodEntry s.currentInput) : GoodEntry (inputNumber d s).currentInput := by
  have hdot : d ≠ '.' := by
    intro hEq
    subst hEq
    exact absurd hd (by decide)
  unfold inputNumber updateDisplay
  split
  · exact goodEntry_singleton d
  · split
    · exact goodEntry_singleton d
    · split
      · exact goodEntry_append_char _ _ hdot h
      · exact h

theorem goodEntry_inputDecimal (s : CalcState) (h : GoodEntry s.currentInput) :
    GoodEntry (inputDecimal s).currentInput := by
  unfold inputDecimal updateDisplay
  split
  · exact goodEntry_zeroDot
  · rename_i hnd
    split
    · rename_i hni
      constructor
      · intro hEq
        have : s.currentInput.data ++ ['.'] = [] := congrArg String.data hEq
        simp at this
      · show (s.currentInput.data ++ ['.']).count '.' ≤ 1
        have hmem : '.' ∉ s.currentInput.data := by
          intro hm
          exact hni (by
            unfold includesDot
            rw [List.any_eq_true]
            exact ⟨'.', hm, by simp⟩)
        rw [List.count_append, List.count_eq_zero_of_not_mem hmem]
        decide
    · exact h

theorem goodEntry_step (e : Event) (s : CalcState) (hwf : eventWF e = true)
    (h : GoodEntry s.currentInput) : GoodEntry ((step e s).currentInput) := by
  cases e with
  | digit d => exact goodEntry_inputNumber d s (by simpa [eventWF] using hwf) h
  | decimal => exact goodEntry_inputDecimal s h
  | op o =>
    show GoodEntry (setOperator o s).currentInput
    unfold setOperator
    dsimp only
    split
    · exact goodEntry_calculate s h
    · exact h
  | equals => exact goodEntry_calculate s h
  | clearKey => exact goodEntry_zero
  | percentage => exact formatResult_good _
  | squareRoot =>
    show GoodEntry (calculateSquareRoot s).currentInput
    unfold calculateSquareRoot
    dsimp only
    split
    · exact h
    · exact formatResult_good _
  | memClear => exact h
  | memRecall => exact formatResult_good _
  | memAdd => exact h
  | memSub => exact h
  | errorTimer =>
    show GoodEntry (fireAutoClear s).currentInput
    unfold fireAutoClear
    split
    · exact goodEntry_zero
    · exact h

theorem goodEntry_run (es : List Event) (s : CalcState)
    (hwf : ∀ e ∈ es, eventWF e = true) (hs : GoodEntry s.currentInput) :
    GoodEntry ((run es s).currentInput) := by
  induction es generalizing s with
  | nil => exact hs
  | cons e t ih =>
    rw [run_cons]
    exact ih (step e s) (fun x hx => hwf x (List.mem_cons_of_mem _ hx))
      (goodEntry_step e s (hwf e (List.mem_cons_self _ _)) hs)

/-! ### Digit/decimal entry reproduces valid sequences exactly -/

theorem digit_of_validChar {c : Char} (h : isDigitChar c = true) : c ≠ '.' := by
  intro hEq
  subst hEq
  exact absurd h (by decide)

theorem validEntrySeq_dropLast (l : List Char) (c : Char) (hl : l ≠ [])
    (h : validEntrySeq (l ++ [c]) = true) : validEntrySeq l = true := by
  rcases l with _ | ⟨c0, rest⟩
  · exact absurd rfl hl
  · unfold validEntrySeq at h ⊢
    rw [List.cons_append] at h
    simp only [Bool.and_eq_true, Bool.or_eq_true, List.all_eq_true, decide_eq_true_eq,
      bne_iff_ne, List.isEmpty_iff, beq_iff_eq] at h ⊢
    obtain ⟨⟨⟨⟨h1, h2⟩, h3⟩, h4⟩, h5⟩ := h
    have hsplit : c0 :: (rest ++ [c]) = (c0 :: rest) ++ [c] := by simp
    rw [hsplit, List.count_append] at h3
    rw [hsplit, List.length_append] at h4
    refine ⟨⟨⟨⟨h1, ?_⟩, ?_⟩, ?_⟩, ?_⟩
    · intro x hx
      exact h2 x (by
        rw [hsplit]
        exact List.mem_append_left _ hx)
    · omega
    · simp only [List.length_singleton] at h4
      omega
    · rcases rest with _ | ⟨r, t⟩
      · exact Or.inl (Or.inr rfl)
      · rcases h5 with (h5 | h5) | h5
        · exact Or.inl (Or.inl h5)
        · exact absurd h5 (by simp)
        · exact Or.inr (by simpa using h5)

theorem validEntrySeq_concat_parts (l : List Char) (c : Char) (hl : l ≠ [])
    (h : validEntrySeq (l ++ [c]) = true) :
    (isDigitChar c = true ∨ c = '.') ∧
    (c = '.' → List.count '.' l = 0) ∧
    l.length ≤ 11 ∧
    (c ≠ '.' → l ≠ ['0']) := by
  rcases l with _ | ⟨c0, rest⟩
  · exact absurd rfl hl
  unfold validEntrySeq at h
  rw [List.cons_append] at h
  simp only [Bool.and_eq_true, Bool.or_eq_true, List.all_eq_true, decide_eq_true_eq,
    bne_iff_ne, List.isEmpty_iff, beq_iff_eq] at h
  obtain ⟨⟨⟨⟨h1, h2⟩, h3⟩, h4⟩, h5⟩ := h
  have hsplit : c0 :: (rest ++ [c]) = (c0 :: rest) ++ [c] := by simp
  rw [hsplit, List.count_append] at h3
  rw [hsplit, List.length_append] at h4
  refine ⟨?_, ?_, ?_, ?_⟩
  · exact h2 c (by
      rw [hsplit]
      exact List.mem_append_right _ (by simp))
  · intro hc
    subst hc
    have : List.count '.' ['.'] = 1 := by decide
    omega
  · simp only [List.length_singleton] at h4
    omega
  · intro hcd hEq
    have hc0 : c0 = '0' := (List.cons.injEq _ _ _ _ ▸ hEq).1
    have hrest : rest = [] := (List.cons.injEq _ _ _ _ ▸ hEq).2
    subst hc0
    subst hrest
    rcases h5 with (h5 | h5) | h5
    · exact h5 rfl
    · exact absurd h5 (by simp)
    · exact hcd (by simpa using h5)

theorem entry_exact_aux (l : List Char) (h : validEntrySeq l = true) :
    (run (l.map entryEvent) initState).currentInput = String.mk l ∧
    (run (l.map entryEvent) initState).waitingForNewInput = false := by
  induction l using List.reverseRecOn with
  | nil => exact absurd h (by decide)
  | append_singleton l c ih =>
    rw [List.map_append, List.map_cons, List.map_nil, run_concat]
    rcases l with _ | ⟨c0, rest⟩
    · have hd : isDigitChar c = true := by
        revert h
        unfold validEntrySeq
        simp only [List.nil_append, Bool.and_eq_true]
        exact fun h => h.1.1.1.1
      have hcd : c ≠ '.' := digit_of_validChar hd
      have hev : entryEvent c = Event.digit c := by
        unfold entryEvent
        rw [if_neg (by simpa using hcd)]
      rw [hev]
      by_cases hc0 : c = '0'
      · subst hc0
        exact ⟨by decide, by decide⟩
      · show (inputNumber c initState).currentInput = _ ∧
          (inputNumber c initState).waitingForNewInput = false
        unfold inputNumber updateDisplay initState
        rw [if_neg (by simp), if_pos ⟨rfl, hc0⟩]
        exact ⟨rfl, rfl⟩
    · have hl : c0 :: rest ≠ [] := by simp
      obtain ⟨hkind, hcnt, hlen, hnotz⟩ := validEntrySeq_concat_parts _ c hl h
      obtain ⟨ih1, ih2⟩ := ih (validEntrySeq_dropLast _ c hl h)
      set t := run ((c0 :: rest).map entryEvent) initState with ht
      by_cases hc : c = '.'
      · subst hc
        show (inputDecimal t).currentInput = _ ∧ (inputDecimal t).waitingForNewInput = false
        have hnin : ¬ includesDot t.currentInput = true := by
          rw [ih1]
          unfold includesDot
          rw [List.any_eq_true]
          rintro ⟨x, hx, hxeq⟩
          have hxd : x = '.' := by simpa using hxeq
          subst hxd
          exact List.count_eq_zero.mp (hcnt rfl) hx
        unfold inputDecimal updateDisplay
        rw [if_neg (by simp [ih2]), if_pos hnin]
        constructor
        · show t.currentInput ++ "." = String.mk ((c0 :: rest) ++ ['.'])
          rw [ih1]
          rfl
        · exact ih2
      · have hd : isDigitChar c = true := by
          rcases hkind with h' | h'
          · exact h'
          · exact absurd h' hc
        have hev : entryEvent c = Event.digit c := by
          unfold entryEvent
          rw [if_neg (by simpa using hc)]
        rw [hev]
        show (inputNumber c t).currentInput = _ ∧ (inputNumber c t).waitingForNewInput = false
        have hne0 : t.currentInput ≠ "0" := by
          rw [ih1]
          intro hEq
          exact (hnotz hc) (congrArg String.data hEq)
        have hlt : t.currentInput.length < 12 := by
          rw [ih1]
          show (c0 :: rest).length < 12
          omega
        unfold inputNumber updateDisplay
        rw [if_neg (by simp [ih2]), if_neg (by
            rintro ⟨hco, _⟩
            exact hne0 hco),
          if_pos ⟨hne0, hlt⟩]
        constructor
        · show t.currentInput ++ String.singleton c = String.mk ((c0 :: rest) ++ [c])
          rw [ih1]
          rfl
        · exact ih2

/-! ### The Error state has exactly two sources -/

theorem errorActive_calculate (s : CalcState) (h0 : s.errorActive = false)
    (h : (calculate s).errorActive = true) : divZeroPending s := by
  rcases ho : s.operator with _ | op <;> rcases hp : s.previousInput with _ | prevStr <;>
    unfold calculate at h <;> rw [ho, hp] at h <;> dsimp only at h
  · rw [h0] at h
    exact absurd h (by simp)
  · rw [h0] at h
    exact absurd h (by simp)
  · rw [h0] at h
    exact absurd h (by simp)
  · cases op <;> dsimp only at h
    · simp [finishCalculate, updateDisplay] at h
    · simp [finishCalculate, updateDisplay] at h
    · simp [finishCalculate, updateDisplay] at h
    · rw [apply_ite CalcState.errorActive] at h
      by_cases hz : (parseFloat s.currentInput).isZero = true
      · exact ⟨ho, by rw [hp]; simp, hz⟩
      · rw [if_neg hz] at h
        simp [finishCalculate, updateDisplay] at h

theorem error_source_aux (s : CalcState) (e : Event) (h0 : s.errorActive = false)
    (h : (step e s).errorActive = true) :
    (e = Event.equals ∧ divZeroPending s) ∨
    (∃ o, e = Event.op o ∧ s.waitingForNewInput = false ∧ divZeroPending s) ∨
    (e = Event.squareRoot ∧ (parseFloat s.currentInput).lt0 = true) := by
  cases e with
  | digit d => simp [step, inputNumber, updateDisplay] at h
  | decimal => simp [step, inputDecimal, updateDisplay] at h
  | op o =>
    unfold step setOperator at h
    dsimp only at h
    by_cases hcond : (s.operator.isSome && !s.waitingForNewInput) = true
    · rw [if_pos hcond] at h
      have hw : s.waitingForNewInput = false := by
        rw [Bool.and_eq_true] at hcond
        simpa using hcond.2
      exact Or.inr (Or.inl ⟨o, rfl, hw, errorActive_calculate s h0 h⟩)
    · rw [if_neg hcond] at h
      rw [h0] at h
      exact absurd h (by simp)
  | equals => exact Or.inl ⟨rfl, errorActive_calculate s h0 h⟩
  | clearKey => simp [step, clear, updateDisplay] at h
  | percentage => simp [step, calculatePercentage, updateDisplay] at h
  | squareRoot =>
    unfold step calculateSquareRoot at h
    dsimp only at h
    by_cases hlt : (parseFloat s.currentInput).lt0 = true
    · exact Or.inr (Or.inr ⟨rfl, hlt⟩)
    · rw [if_neg hlt] at h
      simp [updateDisplay] at h
  | memClear =>
    simp only [step, memoryClear, showTemporaryMessage] at h
    rw [h0] at h
    exact absurd h (by simp)
  | memRecall => simp [step, memoryRecall, showTemporaryMessage, updateDisplay] at h
  | memAdd =>
    simp only [step, memoryAdd, showTemporaryMessage] at h
    rw [h0] at h
    exact absurd h (by simp)
  | memSub =>
    simp only [step, memorySubtract, showTemporaryMessage] at h
    rw [h0] at h
    exact absurd h (by simp)
  | errorTimer =>
    unfold step fireAutoClear at h
    dsimp only at h
    split at h
    · simp [clear, updateDisplay] at h
    · rw [h0] at h
      exact absurd h (by simp)

/-! ### NaN propagation and memory-frame helpers -/

theorem JSNum.add_nan (a b : JSNum) (h : a = JSNum.nan ∨ b = JSNum.nan) :
    a.add b = JSNum.nan := by
  cases a <;> cases b <;> simp_all [JSNum.add]

theorem JSNum.sub_nan (a b : JSNum) (h : a = JSNum.nan ∨ b = JSNum.nan) :
    a.sub b = JSNum.nan := by
  cases a <;> cases b <;> simp_all [JSNum.sub]

theorem JSNum.mul_nan (a b : JSNum) (h : a = JSNum.nan ∨ b = JSNum.nan) :
    a.mul b = JSNum.nan := by
  cases a <;> cases b <;> simp_all [JSNum.mul]

theorem JSNum.div_nan (a b : JSNum) (h : a = JSNum.nan ∨ b = JSNum.nan) :
    a.div b = JSNum.nan := by
  cases a <;> cases b <;> simp_all [JSNum.div]

theorem calculate_preserves_memory (s : CalcState) : (calculate s).memory = s.memory := by
  rcases ho : s.operator with _ | op <;> rcases hp : s.previousInput with _ | prevStr <;>
    unfold calculate <;> rw [ho, hp] <;> dsimp only
  cases op <;> dsimp only
  · rfl
  · rfl
  · rfl
  · split <;> rfl

/-! ### The claims -/

/-- C1: operator chaining is left-associative with no precedence: whenever
`setOperator` runs while an operator is pending and `waitingForNewInput` is
false, the pending computation is evaluated first and its formatted result
becomes the new pending operand; concretely, after 2, +, 3, × the pending
operand is "5", and a following 4, = yields CurrentEntry "20". -/
theorem chaining_left_associative (s : CalcState) (newOp oldOp : Op)
    (h1 : s.operator = some oldOp) (h2 : s.waitingForNewInput = false) :
    setOperator newOp s =
      { calculate s with
        operator := some newOp,
        previousInput := some (calculate s).currentInput,
        waitingForNewInput := true,
        operationDisplay := (calculate s).currentInput ++ " " ++ opSymbol newOp } ∧
    (run chainPrefixEvents initState).previousInput = some "5" ∧
    (run chainFullEvents initState).currentInput = "20" := by
  refine ⟨?_, ?_, ?_⟩
  · unfold setOperator
    rw [if_pos (by rw [h1, h2]; rfl)]
  · with_unfolding_all decide
  · with_unfolding_all decide

/-- Witness for C1 at the concrete chaining state: after 2, +, 3 the state
has operator add and awaits no fresh entry, so the theorem applies and its
concrete conjuncts are delivered. -/
theorem chaining_left_associative_witness :
    (run chainPrefixEvents initState).previousInput = some "5" ∧
    (run chainFullEvents initState).currentInput = "20" :=
  (chaining_left_associative
    (run [Event.digit '2', Event.op Op.add, Event.digit '3'] initState)
    Op.multiply Op.add (by with_unfolding_all decide)
    (by with_unfolding_all decide)).2

/-- C2: `formatResult` implements the four-step policy in order (non-finite →
"Error"; `|v| ≥ 1e12` or `0 ≠ |v| ≤ 1e-6` → exponential with 6 fractional
digits; else plain decimal, rounded to 8 fractional digits with trailing
zeros and a then-empty '.' stripped when it has more than 8; still longer
than 12 characters → exponential with 5 fractional digits); in particular
1234567890123 and 0.0000001234 render exponentially with 6 fractional digits
and 3.14159265358979 renders as "3.14159265". -/
theorem formatResult_policy (r : JSNum) :
    formatResult r = formatResultSpec r ∧
    formatResult (JSNum.num (1234567890123 : ℚ)) = "1.234568e+12" ∧
    formatResult (JSNum.num (1234567890123 : ℚ)) =
      jsToExponential (1234567890123 : ℚ) 6 ∧
    formatResult (JSNum.num (1234 / 10 ^ 10 : ℚ)) = "1.234000e-7" ∧
    formatResult (JSNum.num (1234 / 10 ^ 10 : ℚ)) =
      jsToExponential (1234 / 10 ^ 10 : ℚ) 6 ∧
    formatResult (JSNum.num (314159265358979 / 10 ^ 14 : ℚ)) = "3.14159265" := by
  refine ⟨?_, ?_, ?_, ?_, ?_, ?_⟩
  · cases r <;> rfl
  · with_unfolding_all decide
  · with_unfolding_all decide
  · with_unfolding_all decide
  · with_unfolding_all decide
  · with_unfolding_all decide

/-- C5: a pending divide whose right operand parses to 0 makes `calculate`
enter the Error state — error flag set, "Cannot divide by zero" displayed,
trace cleared, a `clear()` scheduled after the fixed 2000 ms delay whose
firing leaves CurrentEntry "0" — and divide-by-zero (reached from `equals`
or from a chaining `setOperator`) and negative square root are the only
transitions that ever enter the Error state. -/
theorem divide_by_zero_error (s : CalcState) (p : String)
    (h1 : s.operator = some Op.divide) (h2 : s.previousInput = some p)
    (h3 : (parseFloat s.currentInput).isZero = true) :
    (calculate s).errorActive = true ∧
    (calculate s).displayText = "Cannot divide by zero" ∧
    (calculate s).operationDisplay = "" ∧
    (calculate s).pendingAutoClear = true ∧
    errorAutoClearDelayMs = 2000 ∧
    (fireAutoClear (calculate s)).currentInput = "0" ∧
    (∀ s' e, s'.errorActive = false → (step e s').errorActive = true →
      (e = Event.equals ∧ divZeroPending s') ∨
      (∃ o, e = Event.op o ∧ s'.waitingForNewInput = false ∧ divZeroPending s') ∨
      (e = Event.squareRoot ∧ (parseFloat s'.currentInput).lt0 = true)) := by
  have hcalc : calculate s = showError "Cannot divide by zero" s := by
    unfold calculate
    rw [h1, h2]
    dsimp only
    rw [if_pos h3]
  rw [hcalc]
  exact ⟨rfl, rfl, rfl, rfl, rfl, rfl, error_source_aux⟩

/-- Witness for C5: at the concrete state 10 ÷ 0 the delayed clear leaves
CurrentEntry "0". -/
theorem divide_by_zero_error_witness :
    (fireAutoClear (calculate divProbe)).currentInput = "0" :=
  (divide_by_zero_error divProbe "10" rfl rfl
    (by with_unfolding_all decide)).2.2.2.2.2.1

/-- C6: `calculateSquareRoot` on a negative parsed entry enters the Error
state with the message "Invalid input for square root" and leaves every
engine data field (entry, pending operand/operator, fresh-entry flag,
memory) unchanged — the trace blanking and error display being the Error
state itself; on a nonnegative parsed entry it sets the entry to the
formatted square root, the trace to "√<entry> =", and awaits a fresh entry;
square root of 16 yields "4". -/
theorem squareRoot_spec (s : CalcState) (q : ℚ)
    (hq : parseFloat s.currentInput = JSNum.num q) :
    (q < 0 →
      calculateSquareRoot s = showError "Invalid input for square root" s ∧
      (calculateSquareRoot s).currentInput = s.currentInput ∧
      (calculateSquareRoot s).previousInput = s.previousInput ∧
      (calculateSquareRoot s).operator = s.operator ∧
      (calculateSquareRoot s).waitingForNewInput = s.waitingForNewInput ∧
      (calculateSquareRoot s).memory = s.memory ∧
      (calculateSquareRoot s).errorActive = true ∧
      (calculateSquareRoot s).displayText = "Invalid input for square root") ∧
    (0 ≤ q →
      (calculateSquareRoot s).currentInput = formatResult (JSNum.num (ratSqrt q)) ∧
      (calculateSquareRoot s).operationDisplay = "√" ++ s.currentInput ++ " =" ∧
      (calculateSquareRoot s).waitingForNewInput = true) ∧
    (calculateSquareRoot sqrtProbe).currentInput = "4" := by
  refine ⟨?_, ?_, ?_⟩
  · intro hneg
    have hlt : (parseFloat s.currentInput).lt0 = true := by
      rw [hq]
      exact decide_eq_true hneg
    have hcalc : calculateSquareRoot s = showError "Invalid input for square root" s := by
      unfold calculateSquareRoot
      dsimp only
      rw [if_pos hlt]
    rw [hcalc]
    exact ⟨rfl, rfl, rfl, rfl, rfl, rfl, rfl, rfl⟩
  · intro hpos
    have hlt : ¬ (parseFloat s.currentInput).lt0 = true := by
      rw [hq]
      simp [JSNum.lt0, not_lt.mpr hpos]
    have hcalc : calculateSquareRoot s =
        updateDisplay
          { s with
            operationDisplay := "√" ++ s.currentInput ++ " =",
            currentInput := formatResult (parseFloat s.currentInput).sqrt,
            waitingForNewInput := true } := by
      unfold calculateSquareRoot
      dsimp only
      rw [if_neg hlt]
    rw [hcalc, hq]
    exact ⟨rfl, rfl, rfl⟩
  · with_unfolding_all decide

/-- Witness for C6 at entry "16": 0 ≤ 16 and the entry becomes the formatted
square root. -/
theorem squareRoot_spec_witness :
    (calculateSquareRoot sqrtProbe).currentInput =
      formatResult (JSNum.num (ratSqrt 16)) :=
  ((squareRoot_spec sqrtProbe 16 (by with_unfolding_all decide)).2.1
    (by norm_num)).1

/-- C8: `calculatePercentage` sets the entry to the formatted hundredth of
its parsed value, the trace to "<entry>% =", and awaits a fresh entry, while
leaving operator, pending operand and memory untouched — a pending operator
stays armed. -/
theorem percentage_spec (s : CalcState) :
    (calculatePercentage s).currentInput =
      formatResult ((parseFloat s.currentInput).div (JSNum.num 100)) ∧
    (calculatePercentage s).operationDisplay = s.currentInput ++ "% =" ∧
    (calculatePercentage s).waitingForNewInput = true ∧
    (calculatePercentage s).operator = s.operator ∧
    (calculatePercentage s).previousInput = s.previousInput ∧
    (calculatePercentage s).memory = s.memory :=
  ⟨rfl, rfl, rfl, rfl, rfl, rfl⟩

/-- C10: divide-by-zero is atomic: the failing `calculate` call leaves
entry, pending operand, operator, fresh-entry flag and memory exactly as
they were — only the error display output (message, flag, blanked trace,
armed timer) changes — so the pending division stays armed. -/
theorem divide_by_zero_atomic (s : CalcState) (p : String)
    (h1 : s.operator = some Op.divide) (h2 : s.previousInput = some p)
    (h3 : (parseFloat s.currentInput).isZero = true) :
    (calculate s).currentInput = s.currentInput ∧
    (calculate s).previousInput = s.previousInput ∧
    (calculate s).operator = s.operator ∧
    (calculate s).waitingForNewInput = s.waitingForNewInput ∧
    (calculate s).memory = s.memory ∧
    (calculate s).displayText = "Cannot divide by zero" ∧
    (calculate s).errorActive = true ∧
    (calculate s).operationDisplay = "" ∧
    (calculate s).pendingAutoClear = true := by
  have hcalc : calculate s = showError "Cannot divide by zero" s := by
    unfold calculate
    rw [h1, h2]
    dsimp only
    rw [if_pos h3]
  rw [hcalc]
  exact ⟨rfl, rfl, rfl, rfl, rfl, rfl, rfl, rfl, rfl⟩

/-- Witness for C10 at the concrete state 8 ÷ "0.00": the pending division
stays armed. -/
theorem divide_by_zero_atomic_witness :
    (calculate divProbe2).operator = divProbe2.operator :=
  (divide_by_zero_atomic divProbe2 "8" rfl rfl
    (by with_unfolding_all decide)).2.2.1

/-- C3: feeding any valid digit/decimal-point sequence (length ≤ 12, at most
one '.', no leading zero) through `inputNumber`/`inputDecimal` from the
cleared state leaves CurrentEntry equal to that exact sequence; "0" followed
by '5' collapses the leading zero to "5"; digits beyond the 12-character
cap, a second '.', and '0' on entry "0" leave CurrentEntry unchanged. -/
theorem entry_sequences_exact (l : List Char) (h : validEntrySeq l = true) :
    (run (l.map entryEvent) initState).currentInput = String.mk l ∧
    (run [Event.digit '0', Event.digit '5'] initState).currentInput = "5" ∧
    (∀ s d, s.waitingForNewInput = false → 12 ≤ s.currentInput.length →
      (inputNumber d s).currentInput = s.currentInput) ∧
    (∀ s, s.waitingForNewInput = false → includesDot s.currentInput = true →
      (inputDecimal s).currentInput = s.currentInput) ∧
    (∀ s, s.waitingForNewInput = false → s.currentInput = "0" →
      (inputNumber '0' s).currentInput = s.currentInput) := by
  refine ⟨(entry_exact_aux l h).1, by decide, ?_, ?_, ?_⟩
  · intro s d hw hlen
    unfold inputNumber updateDisplay
    rw [if_neg (by simp [hw]),
      if_neg (by
        rintro ⟨h0, _⟩
        rw [h0] at hlen
        exact absurd hlen (by decide)),
      if_neg (by
        rintro ⟨_, hl⟩
        omega)]
  · intro s hw hd
    unfold inputDecimal updateDisplay
    rw [if_neg (by simp [hw]), if_neg (fun hc => hc hd)]
  · intro s hw h0
    unfold inputNumber updateDisplay
    rw [if_neg (by simp [hw]),
      if_neg (by
        rintro ⟨_, hne⟩
        exact hne rfl),
      if_neg (by
        rintro ⟨hne, _⟩
        exact hne h0)]

/-- Witness for C3 at the valid sequence "0.5". -/
theorem entry_sequences_exact_witness :
    (run (['0', '.', '5'].map entryEvent) initState).currentInput =
      String.mk ['0', '.', '5'] :=
  (entry_sequences_exact ['0', '.', '5'] (by decide)).1

/-- C4 counterexample: with a pending 5 + and CurrentEntry "Error" (a string
`parseFloat` cannot parse), the operation does not proceed as if the operand
were 0 — that would yield "5" — but produces "Error": the parse failure
yields NaN, which propagates. -/
theorem malformed_zero_counterexample :
    (calculate malformedProbe).currentInput = "Error" ∧
    formatResult ((parseFloat "5").add (JSNum.num 0)) = "5" ∧
    (calculate malformedProbe).currentInput ≠
      formatResult ((parseFloat "5").add (JSNum.num 0)) := by
  refine ⟨?_, ?_, ?_⟩ <;> with_unfolding_all decide

/-- C4 amended: a malformed operand string parses to NaN — not 0 — and the
NaN propagates through the arithmetic: `calculate` (except when the
divide-by-zero guard fires first), `calculatePercentage`, `memoryAdd` and
`memorySubtract` produce a NaN result, displayed as the crash-free string
"Error" by `formatResult` rather than an operand treated as 0. -/
theorem malformed_nan_propagates (s : CalcState) (o : Op) (p : String)
    (h1 : s.operator = some o) (h2 : s.previousInput = some p)
    (h3 : parseFloat p = JSNum.nan ∨ parseFloat s.currentInput = JSNum.nan)
    (h4 : ¬(o = Op.divide ∧ (parseFloat s.currentInput).isZero = true)) :
    (calculate s).currentInput = "Error" ∧
    (∀ s', parseFloat s'.currentInput = JSNum.nan →
      (calculatePercentage s').currentInput = "Error" ∧
      (memoryAdd s').memory = JSNum.nan ∧
      (memorySubtract s').memory = JSNum.nan) := by
  constructor
  · unfold calculate
    rw [h1, h2]
    dsimp only
    cases o <;> dsimp only
    · show formatResult ((parseFloat p).add (parseFloat s.currentInput)) = "Error"
      rw [JSNum.add_nan _ _ h3]
      rfl
    · show formatResult ((parseFloat p).sub (parseFloat s.currentInput)) = "Error"
      rw [JSNum.sub_nan _ _ h3]
      rfl
    · show formatResult ((parseFloat p).mul (parseFloat s.currentInput)) = "Error"
      rw [JSNum.mul_nan _ _ h3]
      rfl
    · have hz : ¬ (parseFloat s.currentInput).isZero = true := fun hz => h4 ⟨rfl, hz⟩
      rw [if_neg hz]
      show formatResult ((parseFloat p).div (parseFloat s.currentInput)) = "Error"
      rw [JSNum.div_nan _ _ h3]
      rfl
  · intro s' hn
    refine ⟨?_, ?_, ?_⟩
    · show formatResult ((parseFloat s'.currentInput).div (JSNum.num 100)) = "Error"
      rw [hn]
      rfl
    · show s'.memory.add (parseFloat s'.currentInput) = JSNum.nan
      rw [hn]
      exact JSNum.add_nan _ _ (Or.inr rfl)
    · show s'.memory.sub (parseFloat s'.currentInput) = JSNum.nan
      rw [hn]
      exact JSNum.sub_nan _ _ (Or.inr rfl)

/-- Witness for C4's amended claim at the concrete 5 + "Error" state. -/
theorem malformed_nan_propagates_witness :
    (calculate malformedProbe).currentInput = "Error" :=
  (malformed_nan_propagates malformedProbe Op.add "5" rfl rfl
    (Or.inr (by with_unfolding_all decide))
    (by with_unfolding_all decide)).1

/-- C7 counterexample: twelve '1' digits followed by the decimal point are
all accepted during entry, leaving the 13-character CurrentEntry
"111111111111." — the claimed 12-character cap does not hold for
`inputDecimal`. -/
theorem entry_cap_counterexample :
    (run thirteenCharEntryEvents initState).currentInput = "111111111111." ∧
    ¬ (run thirteenCharEntryEvents initState).currentInput.length ≤ 12 := by
  constructor <;> decide

/-- C7 amended: in every state reachable by well-formed events, CurrentEntry
is nonempty and contains at most one decimal point — every engine operation
preserves this — and digit entry respects the 12-character cap (a digit
never grows an entry of length ≤ 12 beyond 12); the decimal point, however,
is appended without any length guard, so entry can reach 13 characters (the
counterexample above). -/
theorem entry_invariant_amended :
    (∀ es, (∀ e ∈ es, eventWF e = true) →
      (run es initState).currentInput ≠ "" ∧
      List.count '.' (run es initState).currentInput.data ≤ 1) ∧
    (∀ s d, s.currentInput.length ≤ 12 →
      (inputNumber d s).currentInput.length ≤ 12) ∧
    (∀ s, (inputDecimal s).currentInput.length ≤
      max (s.currentInput.length + 1) 2) := by
  refine ⟨?_, ?_, ?_⟩
  · intro es hwf
    exact goodEntry_run es initState hwf goodEntry_zero
  · intro s d hlen
    unfold inputNumber updateDisplay
    split
    · show (1 : Nat) ≤ 12
      decide
    · split
      · show (1 : Nat) ≤ 12
        decide
      · split
        · rename_i hc
          show (s.currentInput.data ++ [d]).length ≤ 12
          rw [List.length_append]
          have hceq : s.currentInput.length = s.currentInput.data.length := rfl
          have hlt := hc.2
          simp only [List.length_singleton]
          omega
        · exact hlen
  · intro s
    unfold inputDecimal updateDisplay
    split
    · show ("0." : String).length ≤ max (s.currentInput.length + 1) 2
      exact Nat.le_max_right _ _
    · split
      · show (s.currentInput.data ++ ['.']).length ≤ max (s.currentInput.length + 1) 2
        rw [List.length_append]
        have hceq : s.currentInput.length = s.currentInput.data.length := rfl
        simp only [List.length_singleton]
        omega
      · show s.currentInput.length ≤ max (s.currentInput.length + 1) 2
        omega

/-- Witness for C7's amended claim: a single well-formed digit event. -/
theorem entry_invariant_amended_witness :
    (run [Event.digit '7'] initState).currentInput ≠ "" ∧
    List.count '.' (run [Event.digit '7'] initState).currentInput.data ≤ 1 :=
  entry_invariant_amended.1 [Event.digit '7'] (by decide)

/-- C9: `clear` resets entry to "0", unsets the pending operand and
operator, lowers the fresh-entry flag, empties the trace and exits the Error
state, while leaving the memory register untouched; only `memoryClear`
resets the memory register (to 0) — every event other than the
memory-clear/add/subtract ones leaves the register unchanged. -/
theorem clear_spec (s : CalcState) :
    (clear s).currentInput = "0" ∧
    (clear s).previousInput = none ∧
    (clear s).operator = none ∧
    (clear s).waitingForNewInput = false ∧
    (clear s).operationDisplay = "" ∧
    (clear s).errorActive = false ∧
    (clear s).memory = s.memory ∧
    (∀ s', (memoryClear s').memory = JSNum.num 0) ∧
    (∀ s' e, e ≠ Event.memClear → e ≠ Event.memAdd → e ≠ Event.memSub →
      (step e s').memory = s'.memory) := by
  refine ⟨rfl, rfl, rfl, rfl, rfl, rfl, rfl, fun s' => rfl, ?_⟩
  intro s' e hne1 hne2 hne3
  cases e with
  | digit d =>
    show (inputNumber d s').memory = s'.memory
    unfold inputNumber updateDisplay
    split
    · rfl
    · split
      · rfl
      · split
        · rfl
        · rfl
  | decimal =>
    show (inputDecimal s').memory = s'.memory
    unfold inputDecimal updateDisplay
    split
    · rfl
    · split
      · rfl
      · rfl
  | op o =>
    show (setOperator o s').memory = s'.memory
    unfold setOperator
    dsimp only
    split
    · exact calculate_preserves_memory s'
    · rfl
  | equals => exact calculate_preserves_memory s'
  | clearKey => rfl
  | percentage => rfl
  | squareRoot =>
    show (calculateSquareRoot s').memory = s'.memory
    unfold calculateSquareRoot
    dsimp only
    split
    · rfl
    · rfl
  | memClear => exact absurd rfl hne1
  | memRecall => rfl
  | memAdd => exact absurd rfl hne2
  | memSub => exact absurd rfl hne3
  | errorTimer =>
    show (fireAutoClear s').memory = s'.memory
    unfold fireAutoClear
    split
    · rfl
    · rfl

/-- Witness for C9's universal memory-frame conjunct at a concrete event. -/
theorem clear_spec_witness :
    (step Event.decimal initState).memory = initState.memory :=
  (clear_spec initState).2.2.2.2.2.2.2.2 initState Event.decimal
    (by decide) (by decide) (by decide)

end Calculator
